import Mathlib

/-! Shallow embedding of the reference-gallery anomaly-scoring algorithm of
`src/lib/referenceDataset.ts`. Images are modelled after the canvas resample
to the 64×64 canonical grid: a list of RGB byte triples. JavaScript numbers
are modelled as exact reals; `Math.random()` and the `toFixed` number
formatting are external (browser) capabilities and enter as injected
parameters (`rand`, `fmt`). -/

namespace RefDataset

/-- One pixel of the resampled 64×64 canvas (the alpha byte is unused by the
extractor). -/
structure Pixel where
  r : ℕ
  g : ℕ
  b : ℕ

/-- Canvas resample size (`const size = 64`). -/
def size : ℕ := 64

/-- Bins per color channel (`const bins = 16`). -/
def bins : ℕ := 16

/-- Number of edge-histogram bins (`const edgeBins = 8`). -/
def edgeBins : ℕ := 8

/-- Size of the color part of a descriptor (`const colorSize = 48`). -/
def colorSize : ℕ := 48

noncomputable section

/-- Normalized 16-bin histogram of one color channel: bucket `j` counts the
pixels whose channel value `v` has `Math.floor(v / 16) = j`, divided by the
total pixel count `size * size` (the per-channel slice of the 48-entry
histogram built by `extractColorHistogram`). -/
def channelHistogram (vals : List ℕ) : List ℝ :=
  (List.range bins).map fun j =>
    ((vals.countP fun v => v / bins == j : ℕ) : ℝ) / ((size * size : ℕ) : ℝ)

/-- `extractColorHistogram`: the three per-channel normalized histograms
concatenated in R, G, B order (48 entries). -/
def extractColorHistogram (pixels : List Pixel) : List ℝ :=
  channelHistogram (pixels.map Pixel.r) ++ channelHistogram (pixels.map Pixel.g) ++
    channelHistogram (pixels.map Pixel.b)

/-- Grayscale conversion `0.299 * r + 0.587 * g + 0.114 * b` of
`extractTextureFeatures`. -/
def grayOf (pixels : List Pixel) : List ℝ :=
  pixels.map fun p => 0.299 * (p.r : ℝ) + 0.587 * (p.g : ℝ) + 0.114 * (p.b : ℝ)

/-- Edge magnitudes of the interior pixels (`y, x ∈ [1, size - 2]`): central
differences `gx`, `gy` of the grayscale image and magnitude `√(gx² + gy²)`,
collected row-major as in the nested loop of `extractTextureFeatures`.
An out-of-range read yields the default 0; on the 64×64 grid every read of
the loop is in range. -/
def edgeMagnitudes (gray : List ℝ) : List ℝ :=
  (List.range' 1 (size - 2)).flatMap fun y =>
    (List.range' 1 (size - 2)).map fun x =>
      let idx := y * size + x
      let gx := gray.getD (idx + 1) 0 - gray.getD (idx - 1) 0
      let gy := gray.getD (idx + size) 0 - gray.getD (idx - size) 0
      Real.sqrt (gx * gx + gy * gy)

/-- Normalized 8-bin histogram of the edge magnitudes with bin
`Math.min(edgeBins - 1, Math.floor(e / 32))` (magnitudes are non-negative, so
`Math.floor` is `Nat.floor`), each count divided by the number of edge
samples. -/
def edgeHistogram (edges : List ℝ) : List ℝ :=
  (List.range edgeBins).map fun j =>
    ((edges.countP fun e => min (edgeBins - 1) ⌊e / 32⌋₊ == j : ℕ) : ℝ) / (edges.length : ℝ)

/-- `extractTextureFeatures`: mean edge magnitude / 255, population standard
deviation of the edge magnitudes / 255, then the 8 normalized histogram bins
(10 entries in total). -/
def extractTextureFeatures (pixels : List Pixel) : List ℝ :=
  let edges := edgeMagnitudes (grayOf pixels)
  let meanEdge := edges.sum / (edges.length : ℝ)
  let edgeVariance := ((edges.map fun e => (e - meanEdge) ^ 2).sum) / (edges.length : ℝ)
  meanEdge / 255 :: Real.sqrt edgeVariance / 255 :: edgeHistogram edges

/-- `extractImageFeatures`: color histogram (48) followed by texture features
(10). -/
def extractImageFeatures (pixels : List Pixel) : List ℝ :=
  extractColorHistogram pixels ++ extractTextureFeatures pixels

/-- `histogramIntersection`: sum, over the indices of the first vector, of the
pointwise minimum. An index beyond either vector reads the default 0 (in the
source such a read would yield `undefined`; it cannot happen for the 48-entry
color slices compared by `analyzeWithReferenceDataset` unless a reference
embedding is shorter than 48 entries). -/
def histogramIntersection (hist1 hist2 : List ℝ) : ℝ :=
  ((List.range hist1.length).map fun i => min (hist1.getD i 0) (hist2.getD i 0)).sum

/-- The inline cosine-similarity computation of `analyzeWithReferenceDataset`:
dot product and the two squared norms are accumulated over the indices of the
test texture vector, then `normTest && normRef ?
dotProduct / (Math.sqrt(normTest) * Math.sqrt(normRef)) : 0` (the JavaScript
truthiness test means: both norms nonzero). -/
def textureCosine (testTexture refTexture : List ℝ) : ℝ :=
  let dotProduct := ((List.range testTexture.length).map fun i =>
    testTexture.getD i 0 * refTexture.getD i 0).sum
  let normTest := ((List.range testTexture.length).map fun i =>
    testTexture.getD i 0 ^ 2).sum
  let normRef := ((List.range testTexture.length).map fun i =>
    refTexture.getD i 0 ^ 2).sum
  if normTest ≠ 0 ∧ normRef ≠ 0 then
    dotProduct / (Real.sqrt normTest * Real.sqrt normRef)
  else 0

/-- Per-entry combined similarity of `analyzeWithReferenceDataset`: split both
vectors at index 48, histogram intersection on the color part, cosine
similarity on the texture part, fused as `colorSim * 0.6 + textureSim * 0.4`. -/
def combinedSimilarity (testFeatures emb : List ℝ) : ℝ :=
  let testColor := testFeatures.take colorSize
  let refColor := emb.take colorSize
  let testTexture := testFeatures.drop colorSize
  let refTexture := emb.drop colorSize
  let colorSim := histogramIntersection testColor refColor
  let textureSim := textureCosine testTexture refTexture
  colorSim * 0.6 + textureSim * 0.4

/-- The `ReferenceImage` record (gallery entry). `embedding` is
`number[] | null`. -/
structure ReferenceImage where
  id : String
  file_path : String
  file_name : String
  category : String
  embedding : Option (List ℝ)
  created_at : String

/-- One `{ imageId, similarity }` record. -/
structure SimRecord where
  imageId : String
  similarity : ℝ

/-- The status enum of `AnomalyResult`. -/
inductive Status where
  | normal
  | warning
  | anomaly_detected
deriving DecidableEq

/-- The severity enum of an anomaly region. -/
inductive Severity where
  | low
  | medium
  | high
deriving DecidableEq

/-- One synthesized anomaly region. -/
structure Region where
  x : ℝ
  y : ℝ
  width : ℝ
  height : ℝ
  severity : Severity
  score : ℝ

/-- The `AnomalyResult` report. -/
structure AnomalyResult where
  anomalyScore : ℝ
  status : Status
  similarityScores : List SimRecord
  anomalyRegions : List Region
  summary : String

/-- The gallery-comparison loop of `analyzeWithReferenceDataset`: entries with
a null embedding are skipped (`if (ref.embedding)`); every other entry pushes
one similarity record. -/
def similaritiesOf (testFeatures : List ℝ) (referenceImages : List ReferenceImage) :
    List SimRecord :=
  referenceImages.filterMap fun ref =>
    ref.embedding.map fun emb =>
      { imageId := ref.id, similarity := combinedSimilarity testFeatures emb }

/-- `Math.max(...similarities.map(s => s.similarity))` when
`similarities.length > 0`, else the initial value 0. -/
def maxSimilarity (similarities : List SimRecord) : ℝ :=
  match similarities.map SimRecord.similarity with
  | [] => 0
  | x :: xs => xs.foldl max x

/-- `similarities.reduce((sum, s) => sum + s.similarity, 0) /
similarities.length` when `similarities.length > 0`, else the initial
value 0. -/
def avgSimilarity (similarities : List SimRecord) : ℝ :=
  if 0 < similarities.length then
    (similarities.map SimRecord.similarity).sum / (similarities.length : ℝ)
  else 0

/-- `const anomalyScore = 1 - (maxSimilarity * 0.7 + avgSimilarity * 0.3)`. -/
def anomalyScoreOf (similarities : List SimRecord) : ℝ :=
  1 - (maxSimilarity similarities * 0.7 + avgSimilarity similarities * 0.3)

/-- The status if-chain of `analyzeWithReferenceDataset`. -/
def statusOf (anomalyScore : ℝ) : Status :=
  if anomalyScore < 0.3 then .normal
  else if anomalyScore < 0.6 then .warning
  else .anomaly_detected

/-- The batch severity of `generateAnomalyRegions`
(`anomalyScore > 0.7 ? 'high' : anomalyScore > 0.5 ? 'medium' : 'low'`;
the source evaluates this once per loop iteration with an identical result). -/
def severityOf (anomalyScore : ℝ) : Severity :=
  if anomalyScore > 0.7 then .high
  else if anomalyScore > 0.5 then .medium
  else .low

/-- `generateAnomalyRegions`. The five `Math.random()` calls of loop
iteration `i` read `rand (5*i) … rand (5*i+4)` of the injected stream, in
source order. The loop runs `Math.ceil(anomalyScore * 3)` times; a
non-positive bound runs it zero times, which `Int.toNat` matches. -/
def generateAnomalyRegions (rand : ℕ → ℝ) (anomalyScore : ℝ) : List Region :=
  if anomalyScore > 0.3 then
    (List.range (⌈anomalyScore * 3⌉.toNat)).map fun i =>
      { x := 0.1 + rand (5 * i) * 0.6
        y := 0.1 + rand (5 * i + 1) * 0.6
        width := 0.15 + rand (5 * i + 2) * 0.2
        height := 0.15 + rand (5 * i + 3) * 0.2
        severity := severityOf anomalyScore
        score := anomalyScore * (0.7 + rand (5 * i + 4) * 0.3) }
  else []

/-- `generateSummary`. The `toFixed(1)` number formatting is a JavaScript
builtin outside the repository and is abstracted as `fmt`, applied to
`maxSim * 100`. -/
def generateSummary (fmt : ℝ → String) (anomalyScore : ℝ) (refCount : ℕ) (maxSim : ℝ) :
    String :=
  if refCount = 0 then
    "No reference images available for comparison. Please upload reference images first."
  else if anomalyScore < 0.3 then
    "Image closely matches reference dataset (" ++ fmt (maxSim * 100) ++
      "% similarity). No significant anomalies detected."
  else if anomalyScore < 0.6 then
    "Image shows some deviation from reference dataset (" ++ fmt (maxSim * 100) ++
      "% similarity). Minor anomalies may be present."
  else
    "Image significantly differs from reference dataset (" ++ fmt (maxSim * 100) ++
      "% similarity). Potential anomaly detected."

/-- The descending comparator `(a, b) => b.similarity - a.similarity` of the
final `similarities.sort`, as the ordering it induces. -/
def simDescLE (a b : SimRecord) : Bool := decide (b.similarity ≤ a.similarity)

/-- The squared norm accumulated by the cosine-similarity loop for a texture
vector compared against itself (the `normTest` accumulator). -/
def texNormSq (t : List ℝ) : ℝ :=
  ((List.range t.length).map fun i => t.getD i 0 ^ 2).sum

/-- `analyzeWithReferenceDataset`, from the decoded test image (its canvas
resample) and the gallery. Image loading, progress callbacks and persistence
are external; `fmt` and `rand` inject the browser's `toFixed` and
`Math.random`. -/
def analyzeWithReferenceDataset (fmt : ℝ → String) (rand : ℕ → ℝ)
    (testPixels : List Pixel) (referenceImages : List ReferenceImage) : AnomalyResult :=
  let testFeatures := extractImageFeatures testPixels
  let similarities := similaritiesOf testFeatures referenceImages
  let anomalyScore := anomalyScoreOf similarities
  let status := statusOf anomalyScore
  let anomalyRegions := generateAnomalyRegions rand anomalyScore
  let summary := generateSummary fmt anomalyScore similarities.length
    (maxSimilarity similarities)
  { anomalyScore := anomalyScore
    status := status
    similarityScores := (similarities.mergeSort simDescLE).take 5
    anomalyRegions := anomalyRegions
    summary := summary }

/-- A constant stand-in for the injected `Math.random` stream, used to
instantiate theorems at concrete inputs. -/
def constRand : ℕ → ℝ := fun _ => 0

/-- A constant stand-in for the injected `toFixed` formatter, used to
instantiate theorems at concrete inputs. -/
def constFmt : ℝ → String := fun _ => ""

/-- A fully black canvas resample: the 64×64 uniform test image. -/
def zeroPixels : List Pixel := List.replicate (64 * 64) ⟨0, 0, 0⟩

/-- A gallery with two distinct entries carrying identical (well-formed,
58-entry) descriptors. -/
def twinGallery : List ReferenceImage :=
  [⟨"a", "", "", "default", some (List.replicate 58 0), ""⟩,
   ⟨"b", "", "", "default", some (List.replicate 58 0), ""⟩]

/-- A gallery whose single entry carries a corrupt descriptor of length 59
(not the fixed 48 + 10). -/
def badGallery : List ReferenceImage :=
  [⟨"bad", "", "", "default", some (List.replicate 59 0), ""⟩]

/-- A non-empty gallery in which every entry has a null descriptor. -/
def nullGallery : List ReferenceImage :=
  [⟨"n1", "", "", "default", none, ""⟩, ⟨"n2", "", "", "default", none, ""⟩]

/-- A concrete well-formed descriptor: each channel sub-histogram puts all its
mass in bucket 0, and the texture vector is the first standard basis vector. -/
def dWit : List ℝ :=
  (1 :: List.replicate 15 0) ++
    ((1 :: List.replicate 15 0) ++ ((1 :: List.replicate 15 0) ++ (1 :: List.replicate 9 0)))

end

/-! ### Helper lemmas -/

/-- Reading a replicated list with a default returns the replicated value in
range and the default out of range. -/
theorem getD_replicate (n i : ℕ) (c d : ℝ) :
    (List.replicate n c).getD i d = if i < n then c else d := by
  by_cases h : i < n
  · rw [List.getD_eq_getElem _ _ (by simpa using h), List.getElem_replicate, if_pos h]
  · rw [List.getD_eq_default _ _ (by simpa using Nat.le_of_not_lt h), if_neg h]

/-- Summing a function of the defaulted reads over the index range of a list
is summing that function over the list. -/
theorem sum_range_getD (l : List ℝ) (f : ℝ → ℝ) :
    ((List.range l.length).map fun i => f (l.getD i 0)).sum = (l.map f).sum := by
  induction l with
  | nil => simp
  | cons a t ih =>
    rw [List.length_cons, List.range_succ_eq_map]
    simp only [List.map_cons, List.map_map, List.sum_cons, Function.comp_def,
      List.getD_cons_zero, List.getD_cons_succ]
    rw [ih]

/-- A defaulted read of a list of non-negative reals is non-negative. -/
theorem getD_nonneg {l : List ℝ} (h : ∀ x ∈ l, 0 ≤ x) (i : ℕ) : 0 ≤ l.getD i 0 := by
  by_cases hi : i < l.length
  · rw [List.getD_eq_getElem _ _ (by simpa using hi)]
    exact h _ (List.getElem_mem _)
  · rw [List.getD_eq_default _ _ (by simpa using Nat.le_of_not_lt hi)]

/-- The histogram intersection of a vector with itself is its total mass. -/
theorem histogramIntersection_self (h : List ℝ) : histogramIntersection h h = h.sum := by
  rw [histogramIntersection]
  have he : (fun i => min (h.getD i 0) (h.getD i 0)) = fun i => id (h.getD i 0) := by
    funext i; simp
  rw [he, sum_range_getD h id, List.map_id]

/-- The initial accumulator bounds a `foldl max`. -/
theorem le_foldl_max (b : ℝ) (l : List ℝ) : b ≤ l.foldl max b := by
  induction l generalizing b with
  | nil => simp
  | cons a t ih => exact le_trans (le_max_left b a) (ih (max b a))

/-- Every element bounds a `foldl max` from below. -/
theorem mem_le_foldl_max {l : List ℝ} {x : ℝ} (hx : x ∈ l) (b : ℝ) :
    x ≤ l.foldl max b := by
  induction l generalizing b with
  | nil => cases hx
  | cons a t ih =>
    rcases List.mem_cons.mp hx with h | h
    · subst h
      exact le_trans (le_max_right b x) (le_foldl_max _ _)
    · exact ih h (max b a)

/-- A `foldl max` is the accumulator or one of the elements. -/
theorem foldl_max_mem (l : List ℝ) (b : ℝ) : l.foldl max b = b ∨ l.foldl max b ∈ l := by
  induction l generalizing b with
  | nil => exact Or.inl rfl
  | cons a t ih =>
    rw [List.foldl_cons]
    rcases ih (max b a) with h | h
    · rcases max_choice b a with hm | hm
      · exact Or.inl (h.trans hm)
      · exact Or.inr (by rw [h, hm]; exact List.mem_cons_self a t)
    · exact Or.inr (List.mem_cons_of_mem a h)

/-- Bridge between list-level and finset-level sums over an index range. -/
theorem sum_map_range (n : ℕ) (f : ℕ → ℝ) :
    ((List.range n).map f).sum = ∑ j ∈ Finset.range n, f j := by
  induction n with
  | zero => simp
  | succ m ih =>
    rw [List.range_succ, List.map_append, List.sum_append, Finset.sum_range_succ, ih]
    simp

/-- A family of bucket counts over a bucketing function that stays below `n`
partitions the list: the counts sum to the length. -/
theorem countP_bins {α : Type} (l : List α) (f : α → ℕ) (n : ℕ) (h : ∀ a ∈ l, f a < n) :
    ∑ j ∈ Finset.range n, l.countP (fun a => f a == j) = l.length := by
  induction l with
  | nil => simp
  | cons a t ih =>
    have ha : f a < n := h a (List.mem_cons_self a t)
    have ht : ∀ x ∈ t, f x < n := fun x hx => h x (List.mem_cons_of_mem a hx)
    simp only [List.countP_cons]
    rw [Finset.sum_add_distrib, ih ht]
    have he : ∀ j ∈ Finset.range n, (if (f a == j) = true then 1 else 0)
        = if f a = j then (fun _ => 1) j else 0 := by
      intro j _
      simp
    rw [Finset.sum_congr rfl he, Finset.sum_ite_eq (Finset.range n) (f a) (fun _ => 1),
      if_pos (Finset.mem_range.mpr ha), List.length_cons]

/-- A channel histogram has 16 entries. -/
theorem channelHistogram_length (vals : List ℕ) : (channelHistogram vals).length = 16 := by
  simp [channelHistogram, bins]

/-- The color histogram has 48 entries. -/
theorem extractColorHistogram_length (pixels : List Pixel) :
    (extractColorHistogram pixels).length = 48 := by
  simp [extractColorHistogram, channelHistogram_length]

/-- The edge histogram has 8 entries. -/
theorem edgeHistogram_length (edges : List ℝ) : (edgeHistogram edges).length = 8 := by
  simp [edgeHistogram, edgeBins]

/-- The interior loop produces 62 × 62 = 3844 edge magnitudes, whatever the
grayscale data. -/
theorem edgeMagnitudes_length (gray : List ℝ) : (edgeMagnitudes gray).length = 3844 := by
  rw [edgeMagnitudes, List.length_flatMap]
  simp [Function.comp_def, size]

/-- The texture feature vector has 10 entries. -/
theorem extractTextureFeatures_length (pixels : List Pixel) :
    (extractTextureFeatures pixels).length = 10 := by
  simp [extractTextureFeatures, edgeHistogram_length]

/-- A full descriptor has 58 entries. -/
theorem extractImageFeatures_length (pixels : List Pixel) :
    (extractImageFeatures pixels).length = 58 := by
  simp [extractImageFeatures, extractColorHistogram_length, extractTextureFeatures_length]

/-- A descriptor regrouped for positional reasoning. -/
theorem extractImageFeatures_eq (pixels : List Pixel) :
    extractImageFeatures pixels =
      channelHistogram (pixels.map Pixel.r) ++ (channelHistogram (pixels.map Pixel.g) ++
        (channelHistogram (pixels.map Pixel.b) ++ extractTextureFeatures pixels)) := by
  simp [extractImageFeatures, extractColorHistogram, List.append_assoc]

/-- Entries 0–15 of a descriptor form the red sub-histogram. -/
theorem extract_take16 (pixels : List Pixel) :
    (extractImageFeatures pixels).take 16 = channelHistogram (pixels.map Pixel.r) := by
  rw [extractImageFeatures_eq, List.take_left' (channelHistogram_length _)]

/-- Entries 16–31 of a descriptor form the green sub-histogram. -/
theorem extract_drop16_take16 (pixels : List Pixel) :
    ((extractImageFeatures pixels).drop 16).take 16 = channelHistogram (pixels.map Pixel.g) := by
  rw [extractImageFeatures_eq, List.drop_left' (channelHistogram_length _),
    List.take_left' (channelHistogram_length _)]

/-- Entries 32–47 of a descriptor form the blue sub-histogram. -/
theorem extract_drop32_take16 (pixels : List Pixel) :
    ((extractImageFeatures pixels).drop 32).take 16 = channelHistogram (pixels.map Pixel.b) := by
  have h32 : (channelHistogram (pixels.map Pixel.r) ++
      channelHistogram (pixels.map Pixel.g)).length = 32 := by
    simp [channelHistogram_length]
  rw [extractImageFeatures_eq, ← List.append_assoc, List.drop_left' h32,
    List.take_left' (channelHistogram_length _)]

/-- Entries 48–57 of a descriptor form the texture feature vector. -/
theorem extract_drop48 (pixels : List Pixel) :
    (extractImageFeatures pixels).drop 48 = extractTextureFeatures pixels := by
  rw [extractImageFeatures, List.drop_left' (extractColorHistogram_length _)]

/-- Entries 50–57 of a descriptor form the edge histogram. -/
theorem extract_drop50 (pixels : List Pixel) :
    (extractImageFeatures pixels).drop 50 =
      edgeHistogram (edgeMagnitudes (grayOf pixels)) := by
  have h : (50 : ℕ) = 48 + 2 := rfl
  rw [h, ← List.drop_drop, extract_drop48, extractTextureFeatures]
  simp

/-- A channel histogram over 4096 in-range byte values sums to exactly 1. -/
theorem channelHistogram_sum (vals : List ℕ) (hlen : vals.length = 4096)
    (hv : ∀ v ∈ vals, v < 256) : (channelHistogram vals).sum = 1 := by
  rw [channelHistogram, sum_map_range, ← Finset.sum_div, ← Nat.cast_sum]
  have hb : ∀ v ∈ vals, v / bins < bins := by
    intro v hvv
    rw [bins, Nat.div_lt_iff_lt_mul (by norm_num)]
    exact lt_of_lt_of_le (hv v hvv) (by norm_num)
  rw [countP_bins vals (fun v => v / bins) bins hb, hlen]
  norm_num [size]

/-- The edge histogram always sums to exactly 1 when there is at least one
edge sample: the `min` clamps every magnitude into a bucket. -/
theorem edgeHistogram_sum (edges : List ℝ) (hne : edges.length ≠ 0) :
    (edgeHistogram edges).sum = 1 := by
  rw [edgeHistogram, sum_map_range, ← Finset.sum_div, ← Nat.cast_sum]
  have hb : ∀ e ∈ edges, min (edgeBins - 1) ⌊e / 32⌋₊ < edgeBins := by
    intro e _
    exact lt_of_le_of_lt (min_le_left _ _) (by norm_num [edgeBins])
  rw [countP_bins edges (fun e => min (edgeBins - 1) ⌊e / 32⌋₊) edgeBins hb]
  rw [div_self (by exact_mod_cast hne)]

/-- Channel-histogram entries are non-negative. -/
theorem channelHistogram_nonneg (vals : List ℕ) : ∀ x ∈ channelHistogram vals, 0 ≤ x := by
  intro x hx
  obtain ⟨j, _, rfl⟩ := List.mem_map.mp hx
  positivity

/-- Edge magnitudes are non-negative. -/
theorem edgeMagnitudes_nonneg (gray : List ℝ) : ∀ x ∈ edgeMagnitudes gray, 0 ≤ x := by
  intro x hx
  obtain ⟨y, _, hy⟩ := List.mem_flatMap.mp hx
  obtain ⟨x', _, rfl⟩ := List.mem_map.mp hy
  exact Real.sqrt_nonneg _

/-- Edge-histogram entries are non-negative. -/
theorem edgeHistogram_nonneg (edges : List ℝ) : ∀ x ∈ edgeHistogram edges, 0 ≤ x := by
  intro x hx
  obtain ⟨j, _, rfl⟩ := List.mem_map.mp hx
  positivity

/-- Texture-feature entries are non-negative. -/
theorem extractTextureFeatures_nonneg (pixels : List Pixel) :
    ∀ x ∈ extractTextureFeatures pixels, 0 ≤ x := by
  intro x hx
  rw [extractTextureFeatures] at hx
  rcases List.mem_cons.mp hx with rfl | hx
  · have hsum : 0 ≤ (edgeMagnitudes (grayOf pixels)).sum :=
      List.sum_nonneg (edgeMagnitudes_nonneg _)
    positivity
  rcases List.mem_cons.mp hx with rfl | hx
  · positivity
  · exact edgeHistogram_nonneg _ x hx

/-- Every entry of an extracted descriptor is non-negative. -/
theorem extractImageFeatures_nonneg (pixels : List Pixel) :
    ∀ x ∈ extractImageFeatures pixels, 0 ≤ x := by
  intro x hx
  rw [extractImageFeatures, extractColorHistogram] at hx
  rcases List.mem_append.mp hx with hx | hx
  · rcases List.mem_append.mp hx with hx | hx
    · rcases List.mem_append.mp hx with hx | hx
      · exact channelHistogram_nonneg _ x hx
      · exact channelHistogram_nonneg _ x hx
    · exact channelHistogram_nonneg _ x hx
  · exact extractTextureFeatures_nonneg _ x hx

/-- The histogram intersection of non-negative vectors is non-negative. -/
theorem histogramIntersection_nonneg (h1 h2 : List ℝ) (h1n : ∀ x ∈ h1, 0 ≤ x)
    (h2n : ∀ x ∈ h2, 0 ≤ x) : 0 ≤ histogramIntersection h1 h2 := by
  rw [histogramIntersection]
  refine List.sum_nonneg ?_
  intro x hx
  obtain ⟨i, _, rfl⟩ := List.mem_map.mp hx
  exact le_min (getD_nonneg h1n i) (getD_nonneg h2n i)

/-- Intersecting a non-negative vector with an all-zero vector gives 0. -/
theorem histogramIntersection_replicate_zero (h1 : List ℝ) (n : ℕ)
    (h1n : ∀ x ∈ h1, 0 ≤ x) :
    histogramIntersection h1 (List.replicate n 0) = 0 := by
  rw [histogramIntersection]
  refine List.sum_eq_zero ?_
  intro x hx
  obtain ⟨i, _, rfl⟩ := List.mem_map.mp hx
  rw [getD_replicate]
  have : ((if i < n then (0 : ℝ) else 0)) = 0 := by split <;> rfl
  rw [this, min_eq_right (getD_nonneg h1n i)]

/-- The cosine similarity of non-negative vectors is non-negative. -/
theorem textureCosine_nonneg (a b : List ℝ) (han : ∀ x ∈ a, 0 ≤ x)
    (hbn : ∀ x ∈ b, 0 ≤ x) : 0 ≤ textureCosine a b := by
  rw [textureCosine]
  split
  · refine div_nonneg ?_ (mul_nonneg (Real.sqrt_nonneg _) (Real.sqrt_nonneg _))
    refine List.sum_nonneg ?_
    intro x hx
    obtain ⟨i, _, rfl⟩ := List.mem_map.mp hx
    exact mul_nonneg (getD_nonneg han i) (getD_nonneg hbn i)
  · exact le_refl 0

/-- The zero-norm guard: a zero `normTest` accumulator short-circuits the
cosine similarity to 0. -/
theorem textureCosine_zero_left (a b : List ℝ) (h : texNormSq a = 0) :
    textureCosine a b = 0 := by
  have hT : ((List.range a.length).map fun i => a.getD i 0 ^ 2).sum = 0 := h
  rw [textureCosine, if_neg]
  intro hc
  exact hc.1 hT

/-- The zero-norm guard fires against an all-zero reference texture vector. -/
theorem textureCosine_replicate_zero_right (a : List ℝ) (n : ℕ) :
    textureCosine a (List.replicate n 0) = 0 := by
  have hR : ((List.range a.length).map fun i =>
      (List.replicate n (0 : ℝ)).getD i 0 ^ 2).sum = 0 := by
    refine List.sum_eq_zero ?_
    intro x hx
    obtain ⟨i, _, rfl⟩ := List.mem_map.mp hx
    rw [getD_replicate]
    split <;> norm_num
  rw [textureCosine, if_neg]
  intro hc
  exact hc.2 hR

/-- A non-negative descriptor compared against the all-zero 58-entry
embedding has combined similarity 0. -/
theorem combinedSimilarity_replicate_zero (testF : List ℝ) (hn : ∀ x ∈ testF, 0 ≤ x) :
    combinedSimilarity testF (List.replicate 58 0) = 0 := by
  rw [combinedSimilarity]
  have htake : (List.replicate 58 (0 : ℝ)).take colorSize = List.replicate 48 0 := by
    simp [colorSize, List.take_replicate]
  have hdrop : (List.replicate 58 (0 : ℝ)).drop colorSize = List.replicate 10 0 := by
    simp [colorSize, List.drop_replicate]
  rw [htake, hdrop]
  rw [histogramIntersection_replicate_zero _ _
    (fun x hx => hn x ((List.take_sublist _ _).mem hx))]
  rw [textureCosine_replicate_zero_right]
  norm_num

/-- One similarity record is pushed per gallery entry with a non-null
embedding. -/
theorem similaritiesOf_length (testF : List ℝ) (gallery : List ReferenceImage) :
    (similaritiesOf testF gallery).length
      = gallery.countP fun r => r.embedding.isSome := by
  induction gallery with
  | nil => rfl
  | cons rhd rtl ih =>
    cases h : rhd.embedding with
    | none => simp [similaritiesOf, List.filterMap_cons, h, List.countP_cons, ← ih]
    | some emb => simp [similaritiesOf, List.filterMap_cons, h, List.countP_cons, ← ih]

/-- A leading entry with a non-null embedding contributes the first
similarity record. -/
theorem similaritiesOf_cons_some (testF : List ℝ) (ref : ReferenceImage)
    (emb : List ℝ) (h : ref.embedding = some emb) (rest : List ReferenceImage) :
    similaritiesOf testF (ref :: rest)
      = ⟨ref.id, combinedSimilarity testF emb⟩ :: similaritiesOf testF rest := by
  rw [similaritiesOf, List.filterMap_cons, h, Option.map_some']
  rfl

/-- An all-null gallery contributes no similarity records. -/
theorem similaritiesOf_eq_nil (testF : List ℝ) (gallery : List ReferenceImage)
    (h : ∀ ref ∈ gallery, ref.embedding = none) : similaritiesOf testF gallery = [] := by
  rw [similaritiesOf, List.filterMap_eq_nil_iff]
  intro ref href
  rw [h ref href]
  rfl

/-- `maxSimilarity` of a non-empty list unfolds to a fold of `max`. -/
theorem maxSimilarity_cons (a : SimRecord) (t : List SimRecord) :
    maxSimilarity (a :: t) = (t.map SimRecord.similarity).foldl max a.similarity := rfl

/-- `maxSimilarity` of a non-empty list is attained by an element and bounds
every element. -/
theorem maxSimilarity_spec (sims : List SimRecord) (h : sims ≠ []) :
    (∃ s ∈ sims, maxSimilarity sims = s.similarity) ∧
      ∀ s ∈ sims, s.similarity ≤ maxSimilarity sims := by
  cases sims with
  | nil => exact absurd rfl h
  | cons a t =>
    constructor
    · rcases foldl_max_mem (t.map SimRecord.similarity) a.similarity with hm | hm
      · exact ⟨a, List.mem_cons_self a t, by rw [maxSimilarity_cons, hm]⟩
      · obtain ⟨s, hs, hval⟩ := List.mem_map.mp hm
        exact ⟨s, List.mem_cons_of_mem a hs, by rw [maxSimilarity_cons, ← hval]⟩
    · intro s hs
      rcases List.mem_cons.mp hs with rfl | hs
      · rw [maxSimilarity_cons]
        exact le_foldl_max _ _
      · rw [maxSimilarity_cons]
        exact mem_le_foldl_max (List.mem_map_of_mem SimRecord.similarity hs) _

/-- `maxSimilarity` of a list of non-negative similarities is non-negative. -/
theorem maxSimilarity_nonneg (sims : List SimRecord)
    (h : ∀ s ∈ sims, 0 ≤ s.similarity) : 0 ≤ maxSimilarity sims := by
  cases sims with
  | nil => exact le_refl 0
  | cons a t =>
    rw [maxSimilarity_cons]
    exact le_trans (h a (List.mem_cons_self a t)) (le_foldl_max _ _)

/-- `avgSimilarity` of a list of non-negative similarities is non-negative. -/
theorem avgSimilarity_nonneg (sims : List SimRecord)
    (h : ∀ s ∈ sims, 0 ≤ s.similarity) : 0 ≤ avgSimilarity sims := by
  rw [avgSimilarity]
  split
  · refine div_nonneg (List.sum_nonneg ?_) (Nat.cast_nonneg _)
    intro x hx
    obtain ⟨s, hs, rfl⟩ := List.mem_map.mp hx
    exact h s hs
  · exact le_refl 0

/-- The anomaly score over an empty similarity list is exactly 1. -/
theorem anomalyScoreOf_nil : anomalyScoreOf [] = 1 := by
  rw [anomalyScoreOf]
  rw [show maxSimilarity [] = 0 from rfl, show avgSimilarity [] = 0 by simp [avgSimilarity]]
  norm_num

/-- The combined similarity of non-negative descriptors is non-negative. -/
theorem combinedSimilarity_nonneg (testF emb : List ℝ) (h1 : ∀ x ∈ testF, 0 ≤ x)
    (h2 : ∀ x ∈ emb, 0 ≤ x) : 0 ≤ combinedSimilarity testF emb := by
  rw [combinedSimilarity]
  have hc := histogramIntersection_nonneg (testF.take colorSize) (emb.take colorSize)
    (fun x hx => h1 x ((List.take_sublist _ _).mem hx))
    (fun x hx => h2 x ((List.take_sublist _ _).mem hx))
  have ht := textureCosine_nonneg (testF.drop colorSize) (emb.drop colorSize)
    (fun x hx => h1 x ((List.drop_sublist _ _).mem hx))
    (fun x hx => h2 x ((List.drop_sublist _ _).mem hx))
  nlinarith

/-- The anomaly score over non-negative similarities never exceeds 1. -/
theorem anomalyScoreOf_le_one (sims : List SimRecord)
    (h : ∀ s ∈ sims, 0 ≤ s.similarity) : anomalyScoreOf sims ≤ 1 := by
  rw [anomalyScoreOf]
  have hm := maxSimilarity_nonneg sims h
  have ha := avgSimilarity_nonneg sims h
  linarith

/-- The descending comparator is total. -/
theorem simDescLE_total : ∀ a b : SimRecord, (simDescLE a b || simDescLE b a) = true := by
  intro a b
  simp only [simDescLE, Bool.or_eq_true, decide_eq_true_eq]
  exact le_total _ _

/-- The descending comparator is transitive. -/
theorem simDescLE_trans : ∀ a b c : SimRecord,
    simDescLE a b = true → simDescLE b c = true → simDescLE a c = true := by
  intro a b c hab hbc
  simp only [simDescLE, decide_eq_true_eq] at *
  exact le_trans hbc hab

/-- Sorting with the descending comparator and truncating yields a list in
non-increasing order of similarity. -/
theorem sorted_take_mergeSort (sims : List SimRecord) :
    List.Sorted (fun a b : SimRecord => b.similarity ≤ a.similarity)
      ((sims.mergeSort simDescLE).take 5) := by
  have hp := List.sorted_mergeSort simDescLE_trans simDescLE_total sims
  have hp' : List.Pairwise (fun a b : SimRecord => b.similarity ≤ a.similarity)
      (sims.mergeSort simDescLE) := by
    refine hp.imp ?_
    intro a b hab
    simpa [simDescLE] using hab
  exact List.Pairwise.sublist (List.take_sublist _ _) hp'

/-- Projection: the anomaly score of the assembled report. -/
theorem analyze_anomalyScore (fmt : ℝ → String) (rand : ℕ → ℝ) (testPixels : List Pixel)
    (gallery : List ReferenceImage) :
    (analyzeWithReferenceDataset fmt rand testPixels gallery).anomalyScore
      = anomalyScoreOf (similaritiesOf (extractImageFeatures testPixels) gallery) := rfl

/-- Projection: the status of the assembled report. -/
theorem analyze_status (fmt : ℝ → String) (rand : ℕ → ℝ) (testPixels : List Pixel)
    (gallery : List ReferenceImage) :
    (analyzeWithReferenceDataset fmt rand testPixels gallery).status
      = statusOf (anomalyScoreOf (similaritiesOf (extractImageFeatures testPixels) gallery)) :=
  rfl

/-- Projection: the truncated sorted similarity records of the report. -/
theorem analyze_similarityScores (fmt : ℝ → String) (rand : ℕ → ℝ) (testPixels : List Pixel)
    (gallery : List ReferenceImage) :
    (analyzeWithReferenceDataset fmt rand testPixels gallery).similarityScores
      = ((similaritiesOf (extractImageFeatures testPixels) gallery).mergeSort
          simDescLE).take 5 := rfl

/-- Projection: the summary of the assembled report. -/
theorem analyze_summary (fmt : ℝ → String) (rand : ℕ → ℝ) (testPixels : List Pixel)
    (gallery : List ReferenceImage) :
    (analyzeWithReferenceDataset fmt rand testPixels gallery).summary
      = generateSummary fmt
          (anomalyScoreOf (similaritiesOf (extractImageFeatures testPixels) gallery))
          (similaritiesOf (extractImageFeatures testPixels) gallery).length
          (maxSimilarity (similaritiesOf (extractImageFeatures testPixels) gallery)) := rfl

/-- The region count when the score clears the 0.3 gate. -/
theorem generateAnomalyRegions_length (rand : ℕ → ℝ) (a : ℝ) (h : a > 0.3) :
    (generateAnomalyRegions rand a).length = ⌈a * 3⌉.toNat := by
  rw [generateAnomalyRegions, if_pos h]
  simp

/-- Every synthesized region carries the batch severity. -/
theorem generateAnomalyRegions_severity (rand : ℕ → ℝ) (a : ℝ) :
    ∀ reg ∈ generateAnomalyRegions rand a, reg.severity = severityOf a := by
  intro reg hreg
  rw [generateAnomalyRegions] at hreg
  split at hreg
  · obtain ⟨i, _, rfl⟩ := List.mem_map.mp hreg
    rfl
  · cases hreg

/-- The `normTest` accumulator is the sum of the squared entries. -/
theorem texNormSq_eq (t : List ℝ) : texNormSq t = (t.map fun x => x ^ 2).sum :=
  sum_range_getD t fun x => x ^ 2

/-- The squared-norm accumulator is non-negative. -/
theorem texNormSq_nonneg (t : List ℝ) : 0 ≤ texNormSq t := by
  rw [texNormSq_eq]
  refine List.sum_nonneg ?_
  intro x hx
  obtain ⟨y, _, rfl⟩ := List.mem_map.mp hx
  positivity

/-- Cosine similarity of a texture vector of nonzero accumulated norm with
itself is exactly 1. -/
theorem textureCosine_self (t : List ℝ) (hn : texNormSq t ≠ 0) :
    textureCosine t t = 1 := by
  have hT : ((List.range t.length).map fun i => t.getD i 0 ^ 2).sum = texNormSq t := rfl
  have hdot : ((List.range t.length).map fun i => t.getD i 0 * t.getD i 0).sum
      = texNormSq t := by
    rw [texNormSq]
    refine congrArg List.sum ?_
    refine List.map_congr_left ?_
    intro i _
    ring
  simp only [textureCosine]
  rw [hT, hdot, if_pos ⟨hn, hn⟩, Real.mul_self_sqrt (texNormSq_nonneg t), div_self hn]

/-- A uniform grayscale image has all-zero edge magnitudes: every central
difference in the interior cancels. -/
theorem edgeMagnitudes_replicate (c : ℝ) :
    edgeMagnitudes (List.replicate (64 * 64) c) = List.replicate 3844 0 := by
  rw [List.eq_replicate_iff]
  refine ⟨edgeMagnitudes_length _, ?_⟩
  intro b hb
  rw [edgeMagnitudes] at hb
  obtain ⟨y, hy, hb⟩ := List.mem_flatMap.mp hb
  obtain ⟨x, hx, rfl⟩ := List.mem_map.mp hb
  have hy' := List.mem_range'_1.mp hy
  have hx' := List.mem_range'_1.mp hx
  rw [size] at hy' hx'
  norm_num at hy' hx'
  dsimp only
  rw [size]
  have e1 : (List.replicate (64 * 64) c).getD (y * 64 + x + 1) 0 = c := by
    rw [getD_replicate, if_pos (by omega)]
  have e2 : (List.replicate (64 * 64) c).getD (y * 64 + x - 1) 0 = c := by
    rw [getD_replicate, if_pos (by omega)]
  have e3 : (List.replicate (64 * 64) c).getD (y * 64 + x + 64) 0 = c := by
    rw [getD_replicate, if_pos (by omega)]
  have e4 : (List.replicate (64 * 64) c).getD (y * 64 + x - 64) 0 = c := by
    rw [getD_replicate, if_pos (by omega)]
  rw [e1, e2, e3, e4, sub_self]
  norm_num

/-- The edge histogram of all-zero magnitudes puts all mass in bin 0. -/
theorem edgeHistogram_replicate_zero :
    edgeHistogram (List.replicate 3844 (0 : ℝ)) = [1, 0, 0, 0, 0, 0, 0, 0] := by
  rw [edgeHistogram]
  have hcount : ∀ j : ℕ, (List.replicate 3844 (0 : ℝ)).countP
      (fun e => min (edgeBins - 1) ⌊e / 32⌋₊ == j) = if j = 0 then 3844 else 0 := by
    intro j
    rw [List.countP_replicate]
    have hmin : min (edgeBins - 1) ⌊(0 : ℝ) / 32⌋₊ = 0 := by
      norm_num [edgeBins]
    simp only [hmin]
    rcases Nat.eq_zero_or_pos j with rfl | hj
    · simp
    · rw [if_neg (by simp; omega), if_neg (by omega)]
  rw [show List.range edgeBins = List.range 8 from rfl]
  simp only [List.range_succ, List.range_zero, List.map_append, List.map_cons,
    List.map_nil, hcount, List.length_replicate, List.nil_append, List.cons_append]
  norm_num

/-- The texture feature vector of a uniform image: zero mean and deviation,
and all histogram mass in bin 0 — the first standard basis vector shifted to
position 2, not the zero vector. -/
theorem extractTextureFeatures_replicate (p : Pixel) :
    extractTextureFeatures (List.replicate (64 * 64) p)
      = [0, 0, 1, 0, 0, 0, 0, 0, 0, 0] := by
  have hedges : edgeMagnitudes (grayOf (List.replicate (64 * 64) p))
      = List.replicate 3844 (0 : ℝ) := by
    rw [grayOf, List.map_replicate]
    exact edgeMagnitudes_replicate _
  simp only [extractTextureFeatures, hedges, edgeHistogram_replicate_zero,
    List.sum_replicate, List.map_replicate, List.length_replicate, smul_zero, zero_div,
    sub_zero, zero_sub, neg_zero]
  norm_num

/-! ### Claim theorems -/

/-- C1: the anomaly score is `1 - (0.7·maxSim + 0.3·avgSim)`, where for an empty
similarity sequence `maxSim = 0` and `avgSim = 0` and otherwise `maxSim` is the
maximum and `avgSim` the arithmetic mean of the similarities; `analyze` called
with an empty gallery returns `anomalyScore = 1`, status `anomaly_detected`, and
the summary stating that no reference images are available. -/
theorem claim_C1 :
    (∀ sims : List SimRecord,
      anomalyScoreOf sims = 1 - (0.7 * maxSimilarity sims + 0.3 * avgSimilarity sims))
    ∧ maxSimilarity [] = 0 ∧ avgSimilarity [] = 0
    ∧ (∀ sims : List SimRecord, sims ≠ [] →
        ((∃ s ∈ sims, maxSimilarity sims = s.similarity)
          ∧ (∀ s ∈ sims, s.similarity ≤ maxSimilarity sims)
          ∧ avgSimilarity sims
              = (sims.map SimRecord.similarity).sum / (sims.length : ℝ)))
    ∧ ∀ (fmt : ℝ → String) (rand : ℕ → ℝ) (testPixels : List Pixel),
        (analyzeWithReferenceDataset fmt rand testPixels []).anomalyScore = 1
        ∧ (analyzeWithReferenceDataset fmt rand testPixels []).status = .anomaly_detected
        ∧ (analyzeWithReferenceDataset fmt rand testPixels []).summary =
            "No reference images available for comparison. Please upload reference images first." := by
  refine ⟨?_, rfl, by simp [avgSimilarity], ?_, ?_⟩
  · intro sims
    rw [anomalyScoreOf]
    ring
  · intro sims h
    refine ⟨(maxSimilarity_spec sims h).1, (maxSimilarity_spec sims h).2, ?_⟩
    rw [avgSimilarity, if_pos (by simpa [List.length_pos] using h)]
  · intro fmt rand testPixels
    refine ⟨?_, ?_, ?_⟩
    · rw [analyze_anomalyScore]
      exact anomalyScoreOf_nil
    · rw [analyze_status, show similaritiesOf (extractImageFeatures testPixels) [] = []
        from rfl, anomalyScoreOf_nil]
      norm_num [statusOf]
    · rw [analyze_summary, show similaritiesOf (extractImageFeatures testPixels) [] = []
        from rfl]
      simp [generateSummary]

/-- C1 witness: the non-emptiness hypothesis is dischargeable, e.g. at a
single-record list. -/
theorem claim_C1_witness :
    (([⟨"w", (1 : ℝ)⟩] : List SimRecord) ≠ [])
      ∧ ∀ s ∈ ([⟨"w", (1 : ℝ)⟩] : List SimRecord),
          s.similarity ≤ maxSimilarity [⟨"w", (1 : ℝ)⟩] :=
  ⟨by simp, (claim_C1.2.2.2.1 [⟨"w", (1 : ℝ)⟩] (by simp)).2.1⟩

/-- C2: the status is `normal` exactly when the score is below 0.3, `warning`
exactly on `[0.3, 0.6)` and `anomaly_detected` exactly on `[0.6, ∞)`; the
boundaries 0.3 and 0.6 fall into the higher-severity bucket and a negative
score such as −0.5 is `normal`, so the three intervals partition the line. -/
theorem claim_C2 :
    (∀ a : ℝ,
      (statusOf a = .normal ↔ a < 0.3)
      ∧ (statusOf a = .warning ↔ 0.3 ≤ a ∧ a < 0.6)
      ∧ (statusOf a = .anomaly_detected ↔ 0.6 ≤ a))
    ∧ statusOf (0.3 : ℝ) = .warning
    ∧ statusOf (0.6 : ℝ) = .anomaly_detected
    ∧ statusOf (-0.5 : ℝ) = .normal := by
  refine ⟨?_, by norm_num [statusOf], by norm_num [statusOf], by norm_num [statusOf]⟩
  intro a
  by_cases h1 : a < 0.3
  · refine ⟨by simp [statusOf, h1], ?_, ?_⟩
    · simp only [statusOf, if_pos h1]
      constructor
      · intro hc
        exact absurd hc (by simp)
      · intro hc
        linarith [hc.1]
    · simp only [statusOf, if_pos h1]
      constructor
      · intro hc
        exact absurd hc (by simp)
      · intro hc
        linarith
  · by_cases h2 : a < 0.6
    · refine ⟨?_, ?_, ?_⟩
      · simp only [statusOf, if_neg h1, if_pos h2]
        constructor
        · intro hc
          exact absurd hc (by simp)
        · intro hc
          exact absurd hc h1
      · simp only [statusOf, if_neg h1, if_pos h2, true_iff]
        exact ⟨le_of_not_lt h1, h2⟩
      · simp only [statusOf, if_neg h1, if_pos h2]
        constructor
        · intro hc
          exact absurd hc (by simp)
        · intro hc
          linarith
    · refine ⟨?_, ?_, ?_⟩
      · simp only [statusOf, if_neg h1, if_neg h2]
        constructor
        · intro hc
          exact absurd hc (by simp)
        · intro hc
          exact absurd hc h1
      · simp only [statusOf, if_neg h1, if_neg h2]
        constructor
        · intro hc
          exact absurd hc (by simp)
        · intro hc
          linarith [hc.2]
      · simp only [statusOf, if_neg h1, if_neg h2, true_iff]
        exact le_of_not_lt h2

/-- C2 witness: the boundary value 0.3 lands in the `warning` bucket. -/
theorem claim_C2_witness : statusOf (0.3 : ℝ) = .warning := claim_C2.2.1

/-- C6: region synthesis returns the empty sequence when the score is at most
0.3, and otherwise exactly `⌈score·3⌉` regions all carrying severity `high`
for scores above 0.7, else `medium` above 0.5, else `low`; in particular 0.3
gives no regions, 0.35 gives 2 regions of severity `low` and 0.75 gives 3
regions of severity `high`. -/
theorem claim_C6 (rand : ℕ → ℝ) :
    (∀ a : ℝ, a ≤ 0.3 → generateAnomalyRegions rand a = [])
    ∧ (∀ a : ℝ, a > 0.3 →
        ((generateAnomalyRegions rand a).length : ℤ) = ⌈a * 3⌉
        ∧ ∀ reg ∈ generateAnomalyRegions rand a,
            reg.severity = if a > 0.7 then .high else if a > 0.5 then .medium else .low)
    ∧ generateAnomalyRegions rand 0.3 = []
    ∧ ((generateAnomalyRegions rand 0.35).length = 2
        ∧ ∀ reg ∈ generateAnomalyRegions rand 0.35, reg.severity = .low)
    ∧ ((generateAnomalyRegions rand 0.75).length = 3
        ∧ ∀ reg ∈ generateAnomalyRegions rand 0.75, reg.severity = .high) := by
  have hlen : ∀ a : ℝ, a > 0.3 →
      ((generateAnomalyRegions rand a).length : ℤ) = ⌈a * 3⌉ := by
    intro a ha
    rw [generateAnomalyRegions_length rand a ha]
    refine Int.toNat_of_nonneg (le_of_lt ?_)
    rw [Int.lt_ceil]
    push_cast
    linarith
  have hceil35 : ⌈(0.35 : ℝ) * 3⌉ = 2 := by
    rw [Int.ceil_eq_iff]
    constructor <;> norm_num
  have hceil75 : ⌈(0.75 : ℝ) * 3⌉ = 3 := by
    rw [Int.ceil_eq_iff]
    constructor <;> norm_num
  refine ⟨?_, ?_, ?_, ⟨?_, ?_⟩, ⟨?_, ?_⟩⟩
  · intro a ha
    rw [generateAnomalyRegions, if_neg (not_lt.mpr ha)]
  · intro a ha
    refine ⟨hlen a ha, ?_⟩
    intro reg hreg
    rw [generateAnomalyRegions_severity rand a reg hreg, severityOf]
  · rw [generateAnomalyRegions, if_neg (by norm_num)]
  · have := hlen 0.35 (by norm_num)
    rw [hceil35] at this
    exact_mod_cast this
  · intro reg hreg
    rw [generateAnomalyRegions_severity rand 0.35 reg hreg]
    norm_num [severityOf]
  · have := hlen 0.75 (by norm_num)
    rw [hceil75] at this
    exact_mod_cast this
  · intro reg hreg
    rw [generateAnomalyRegions_severity rand 0.75 reg hreg]
    norm_num [severityOf]

/-- C6 witness: the score-gate hypotheses hold at the concrete inputs 0.3 and
0.35 with the constant random stream. -/
theorem claim_C6_witness :
    ((0.3 : ℝ) ≤ 0.3 ∧ generateAnomalyRegions constRand 0.3 = [])
      ∧ ((0.35 : ℝ) > 0.3
          ∧ ((generateAnomalyRegions constRand 0.35).length : ℤ) = ⌈(0.35 : ℝ) * 3⌉) :=
  ⟨⟨by norm_num, (claim_C6 constRand).1 0.3 (by norm_num)⟩,
   ⟨by norm_num, ((claim_C6 constRand).2.1 0.35 (by norm_num)).1⟩⟩

/-- C9: a non-empty gallery whose entries all have a null descriptor yields the
same degraded report as the empty gallery: score 1, status `anomaly_detected`,
no similarity records, and the no-reference-images summary — the summary
branch is chosen by the number of contributing entries, not the gallery
size. -/
theorem claim_C9 (fmt : ℝ → String) (rand : ℕ → ℝ) (testPixels : List Pixel)
    (gallery : List ReferenceImage) (h : ∀ ref ∈ gallery, ref.embedding = none) :
    analyzeWithReferenceDataset fmt rand testPixels gallery
      = analyzeWithReferenceDataset fmt rand testPixels []
    ∧ (analyzeWithReferenceDataset fmt rand testPixels gallery).anomalyScore = 1
    ∧ (analyzeWithReferenceDataset fmt rand testPixels gallery).status = .anomaly_detected
    ∧ (analyzeWithReferenceDataset fmt rand testPixels gallery).similarityScores = []
    ∧ (analyzeWithReferenceDataset fmt rand testPixels gallery).summary =
        "No reference images available for comparison. Please upload reference images first." := by
  have hnil : similaritiesOf (extractImageFeatures testPixels) gallery = [] :=
    similaritiesOf_eq_nil _ _ h
  refine ⟨?_, ?_, ?_, ?_, ?_⟩
  · rw [analyzeWithReferenceDataset, analyzeWithReferenceDataset, hnil,
      show similaritiesOf (extractImageFeatures testPixels) [] = [] from rfl]
  · rw [analyze_anomalyScore, hnil]
    exact anomalyScoreOf_nil
  · rw [analyze_status, hnil, anomalyScoreOf_nil]
    norm_num [statusOf]
  · rw [analyze_similarityScores, hnil]
    simp [List.mergeSort_nil]
  · rw [analyze_summary, hnil]
    simp [generateSummary]

/-- C9 witness: the all-null hypothesis holds for a concrete two-entry
gallery. -/
theorem claim_C9_witness :
    (∀ ref ∈ nullGallery, ref.embedding = none)
    ∧ analyzeWithReferenceDataset constFmt constRand [] nullGallery
        = analyzeWithReferenceDataset constFmt constRand [] [] := by
  have hnull : ∀ ref ∈ nullGallery, ref.embedding = none := by
    intro ref href
    rw [nullGallery] at href
    rcases List.mem_cons.mp href with rfl | href
    · rfl
    rcases List.mem_cons.mp href with rfl | href
    · rfl
    · cases href
  exact ⟨hnull, (claim_C9 constFmt constRand [] nullGallery hnull).1⟩

/-- C10: when the query descriptor (as produced by the extractor) and every
gallery embedding have only non-negative components, each combined similarity
is non-negative, and hence the anomaly score never exceeds 1. -/
theorem claim_C10 (fmt : ℝ → String) (rand : ℕ → ℝ) (testPixels : List Pixel)
    (gallery : List ReferenceImage)
    (h : ∀ ref ∈ gallery, ∀ emb, ref.embedding = some emb → ∀ x ∈ emb, 0 ≤ x) :
    (∀ rec ∈ similaritiesOf (extractImageFeatures testPixels) gallery,
        0 ≤ rec.similarity)
    ∧ (analyzeWithReferenceDataset fmt rand testPixels gallery).anomalyScore ≤ 1 := by
  have hrec : ∀ rec ∈ similaritiesOf (extractImageFeatures testPixels) gallery,
      0 ≤ rec.similarity := by
    intro rec hrec
    rw [similaritiesOf] at hrec
    obtain ⟨ref, href, hmap⟩ := List.mem_filterMap.mp hrec
    cases hemb : ref.embedding with
    | none =>
      rw [hemb] at hmap
      cases hmap
    | some emb =>
      rw [hemb, Option.map_some'] at hmap
      obtain rfl := Option.some.inj hmap
      exact combinedSimilarity_nonneg _ _ (extractImageFeatures_nonneg testPixels)
        (h ref href emb hemb)
  exact ⟨hrec, by rw [analyze_anomalyScore]; exact anomalyScoreOf_le_one _ hrec⟩

/-- C10 witness: the non-negativity hypothesis holds for the concrete
two-entry gallery of all-zero descriptors. -/
theorem claim_C10_witness :
    (∀ ref ∈ twinGallery, ∀ emb, ref.embedding = some emb → ∀ x ∈ emb, 0 ≤ x)
    ∧ (analyzeWithReferenceDataset constFmt constRand zeroPixels
        twinGallery).anomalyScore ≤ 1 := by
  have hpos : ∀ ref ∈ twinGallery, ∀ emb, ref.embedding = some emb →
      ∀ x ∈ emb, 0 ≤ x := by
    intro ref href emb hemb x hx
    rw [twinGallery] at href
    have hzero : emb = List.replicate 58 (0 : ℝ) := by
      rcases List.mem_cons.mp href with rfl | href
      · simpa using hemb.symm
      rcases List.mem_cons.mp href with rfl | href
      · simpa using hemb.symm
      · cases href
    rw [hzero] at hx
    rw [List.eq_of_mem_replicate hx]
  exact ⟨hpos,
    (claim_C10 constFmt constRand zeroPixels twinGallery hpos).2⟩

/-- C3: for a descriptor of the extracted shape (58 entries, each 16-bin color
sub-histogram summing to 1, texture part of nonzero accumulated norm), the
self-similarity has `colorSim = 3` (histogram intersection equals total mass),
`textureSim = 1` (cosine of a nonzero vector with itself), and the combined
similarity `0.6 · 3 + 0.4 · 1 = 2.2`. -/
theorem claim_C3 (d : List ℝ) (hlen : d.length = 58)
    (h1 : (d.take 16).sum = 1) (h2 : ((d.drop 16).take 16).sum = 1)
    (h3 : ((d.drop 32).take 16).sum = 1) (hn : texNormSq (d.drop 48) ≠ 0) :
    histogramIntersection (d.take 48) (d.take 48) = 3
    ∧ textureCosine (d.drop 48) (d.drop 48) = 1
    ∧ combinedSimilarity d d = 2.2 := by
  have e1 : d.take 48 = d.take 16 ++ ((d.drop 16).take 16 ++ (d.drop 32).take 16) := by
    rw [show (48 : ℕ) = 16 + 32 from rfl, List.take_add,
      show (32 : ℕ) = 16 + 16 from rfl, List.take_add, List.drop_drop]
  have hcolor : histogramIntersection (d.take 48) (d.take 48) = 3 := by
    rw [histogramIntersection_self, e1, List.sum_append, List.sum_append, h1, h2, h3]
    norm_num
  have hcos : textureCosine (d.drop 48) (d.drop 48) = 1 := textureCosine_self _ hn
  refine ⟨hcolor, hcos, ?_⟩
  simp only [combinedSimilarity, colorSize]
  rw [hcolor, hcos]
  norm_num

/-- C3 witness: the shape hypotheses hold at the concrete descriptor `dWit`, on
which the combined self-similarity is 2.2. -/
theorem claim_C3_witness :
    dWit.length = 58
    ∧ (dWit.take 16).sum = 1
    ∧ ((dWit.drop 16).take 16).sum = 1
    ∧ ((dWit.drop 32).take 16).sum = 1
    ∧ texNormSq (dWit.drop 48) ≠ 0
    ∧ combinedSimilarity dWit dWit = 2.2 := by
  have hb : (1 :: List.replicate 15 (0 : ℝ)).length = 16 := by simp
  have hlen : dWit.length = 58 := by simp [dWit]
  have h1 : (dWit.take 16).sum = 1 := by
    rw [dWit, List.take_left' hb]
    simp
  have h2 : ((dWit.drop 16).take 16).sum = 1 := by
    rw [dWit, List.drop_left' hb, List.take_left' hb]
    simp
  have h32 : dWit.drop 32
      = (1 :: List.replicate 15 (0 : ℝ)) ++ (1 :: List.replicate 9 0) := by
    rw [dWit, show (32 : ℕ) = 16 + 16 from rfl, ← List.drop_drop, List.drop_left' hb,
      List.drop_left' hb]
  have h3 : ((dWit.drop 32).take 16).sum = 1 := by
    rw [h32, List.take_left' hb]
    simp
  have h48 : dWit.drop 48 = 1 :: List.replicate 9 (0 : ℝ) := by
    rw [show (48 : ℕ) = 32 + 16 from rfl, ← List.drop_drop, h32, List.drop_left' hb]
  have hn : texNormSq (dWit.drop 48) ≠ 0 := by
    rw [h48, texNormSq_eq]
    simp
  exact ⟨hlen, h1, h2, h3, hn,
    (claim_C3 dWit hlen h1 h2 h3 hn).2.2⟩

/-- C4: for every image resampled to the 64×64 grid (4096 pixels of 8-bit
channels), each of the three 16-bucket per-channel color sub-histograms of the
descriptor sums to exactly 1, and the 8-bin edge-magnitude histogram (entries
50–57, magnitudes above the top bin clamped into it) also sums to exactly 1. -/
theorem claim_C4 (pixels : List Pixel) (hlen : pixels.length = 4096)
    (hbytes : ∀ p ∈ pixels, p.r < 256 ∧ p.g < 256 ∧ p.b < 256) :
    ((extractImageFeatures pixels).take 16).sum = 1
    ∧ (((extractImageFeatures pixels).drop 16).take 16).sum = 1
    ∧ (((extractImageFeatures pixels).drop 32).take 16).sum = 1
    ∧ ((extractImageFeatures pixels).drop 50).sum = 1 := by
  refine ⟨?_, ?_, ?_, ?_⟩
  · rw [extract_take16]
    refine channelHistogram_sum _ (by simp [hlen]) ?_
    intro v hv
    obtain ⟨p, hp, rfl⟩ := List.mem_map.mp hv
    exact (hbytes p hp).1
  · rw [extract_drop16_take16]
    refine channelHistogram_sum _ (by simp [hlen]) ?_
    intro v hv
    obtain ⟨p, hp, rfl⟩ := List.mem_map.mp hv
    exact (hbytes p hp).2.1
  · rw [extract_drop32_take16]
    refine channelHistogram_sum _ (by simp [hlen]) ?_
    intro v hv
    obtain ⟨p, hp, rfl⟩ := List.mem_map.mp hv
    exact (hbytes p hp).2.2
  · rw [extract_drop50]
    refine edgeHistogram_sum _ ?_
    rw [edgeMagnitudes_length]
    norm_num

/-- C4 witness: the canonical-grid hypotheses hold at the all-black 64×64
image, whose red sub-histogram sums to 1. -/
theorem claim_C4_witness :
    zeroPixels.length = 4096
    ∧ (∀ p ∈ zeroPixels, p.r < 256 ∧ p.g < 256 ∧ p.b < 256)
    ∧ ((extractImageFeatures zeroPixels).take 16).sum = 1 := by
  have hlen : zeroPixels.length = 4096 := by
    rw [zeroPixels, List.length_replicate]
  have hbytes : ∀ p ∈ zeroPixels, p.r < 256 ∧ p.g < 256 ∧ p.b < 256 := by
    intro p hp
    rw [List.eq_of_mem_replicate hp]
    norm_num
  exact ⟨hlen, hbytes, (claim_C4 zeroPixels hlen hbytes).1⟩

/-- C5 counterexample: for the uniform (all-black, hence zero-gradient) 64×64
image, the cosine similarity of its texture feature vector with itself is not
0 — the vector is `[0, 0, 1, 0, …, 0]` (edge-histogram mass in bin 0), its
norm is 1, and the self-similarity is 1. -/
theorem claim_C5_counterexample :
    textureCosine (extractTextureFeatures zeroPixels) (extractTextureFeatures zeroPixels)
      ≠ 0 := by
  have hz : extractTextureFeatures zeroPixels = [0, 0, 1, 0, 0, 0, 0, 0, 0, 0] :=
    extractTextureFeatures_replicate ⟨0, 0, 0⟩
  rw [hz, textureCosine_self]
  · norm_num
  · rw [texNormSq_eq]
    norm_num

/-- C5 (amended): the texture feature vector of a uniform (zero-gradient)
image is `[0, 0, 1, 0, …, 0]`, not the zero vector, and its cosine similarity
with itself is exactly 1, not 0; the zero-norm guard returns 0 (rather than
NaN) only when the accumulated squared norm of the test texture vector is 0. -/
theorem claim_C5_amended (p : Pixel) :
    extractTextureFeatures (List.replicate (64 * 64) p) = [0, 0, 1, 0, 0, 0, 0, 0, 0, 0]
    ∧ textureCosine (extractTextureFeatures (List.replicate (64 * 64) p))
        (extractTextureFeatures (List.replicate (64 * 64) p)) = 1
    ∧ ∀ a b : List ℝ, texNormSq a = 0 → textureCosine a b = 0 := by
  have h1 := extractTextureFeatures_replicate p
  refine ⟨h1, ?_, fun a b h => textureCosine_zero_left a b h⟩
  rw [h1, textureCosine_self]
  rw [texNormSq_eq]
  norm_num

/-- C5 witness: the zero-norm-guard hypothesis is dischargeable at a concrete
zero texture vector, where the guarded cosine similarity is 0. -/
theorem claim_C5_witness :
    texNormSq [(0 : ℝ)] = 0 ∧ textureCosine [(0 : ℝ)] [(1 : ℝ)] = 0 := by
  have h : texNormSq [(0 : ℝ)] = 0 := by
    rw [texNormSq_eq]
    norm_num
  exact ⟨h, (claim_C5_amended ⟨0, 0, 0⟩).2.2 [(0 : ℝ)] [(1 : ℝ)] h⟩

/-- C7 counterexample: a gallery of two entries with identical descriptors
yields two equal top similarities, so `topSimilarities` is not sorted
strictly descending. -/
theorem claim_C7_counterexample :
    ((analyzeWithReferenceDataset constFmt constRand zeroPixels
        twinGallery).similarityScores.map SimRecord.similarity) = [0, 0]
    ∧ ¬ List.Sorted (fun a b : ℝ => a > b)
        ((analyzeWithReferenceDataset constFmt constRand zeroPixels
          twinGallery).similarityScores.map SimRecord.similarity) := by
  have hsim : combinedSimilarity (extractImageFeatures zeroPixels)
      (List.replicate 58 0) = 0 :=
    combinedSimilarity_replicate_zero _ (extractImageFeatures_nonneg zeroPixels)
  have hsims : similaritiesOf (extractImageFeatures zeroPixels) twinGallery
      = [⟨"a", 0⟩, ⟨"b", 0⟩] := by
    rw [twinGallery, similaritiesOf_cons_some _ _ (List.replicate 58 0) rfl,
      similaritiesOf_cons_some _ _ (List.replicate 58 0) rfl,
      show similaritiesOf (extractImageFeatures zeroPixels) [] = [] from rfl, hsim]
  have hmap : ((analyzeWithReferenceDataset constFmt constRand zeroPixels
      twinGallery).similarityScores.map SimRecord.similarity) = [0, 0] := by
    rw [analyze_similarityScores, hsims]
    have hlen2 : (([⟨"a", 0⟩, ⟨"b", 0⟩] : List SimRecord).mergeSort simDescLE).length
        = 2 := by
      rw [List.length_mergeSort]
      rfl
    rw [List.take_of_length_le (by rw [hlen2]; norm_num)]
    have hmem : ∀ s ∈ (([⟨"a", 0⟩, ⟨"b", 0⟩] : List SimRecord).mergeSort simDescLE),
        s.similarity = 0 := by
      intro s hs
      have hs' := (List.mergeSort_perm [⟨"a", 0⟩, ⟨"b", 0⟩] simDescLE).mem_iff.mp hs
      rcases List.mem_cons.mp hs' with rfl | hs'
      · rfl
      rcases List.mem_cons.mp hs' with rfl | hs'
      · rfl
      · cases hs'
    have : (([⟨"a", 0⟩, ⟨"b", 0⟩] : List SimRecord).mergeSort simDescLE).map
        SimRecord.similarity = List.replicate 2 0 := by
      rw [List.eq_replicate_iff]
      refine ⟨by rw [List.length_map, hlen2], ?_⟩
      intro b hb
      obtain ⟨s, hs, rfl⟩ := List.mem_map.mp hb
      exact hmem s hs
    rw [this]
    rfl
  refine ⟨hmap, ?_⟩
  rw [hmap]
  simp [List.sorted_cons]

/-- C7 (amended): `topSimilarities` is sorted in non-increasing (weakly
descending, not necessarily strictly descending) order of similarity, and its
length is `min 5 (number of gallery entries with a non-null descriptor)`. -/
theorem claim_C7_amended (fmt : ℝ → String) (rand : ℕ → ℝ) (testPixels : List Pixel)
    (gallery : List ReferenceImage) :
    List.Sorted (fun a b : SimRecord => b.similarity ≤ a.similarity)
      ((analyzeWithReferenceDataset fmt rand testPixels gallery).similarityScores)
    ∧ (analyzeWithReferenceDataset fmt rand testPixels gallery).similarityScores.length
        = min 5 (gallery.countP fun r => r.embedding.isSome) := by
  rw [analyze_similarityScores]
  refine ⟨sorted_take_mergeSort _, ?_⟩
  rw [List.length_take, List.length_mergeSort, similaritiesOf_length]

/-- C7 witness: the amended length relation instantiated at the empty query
and empty gallery. -/
theorem claim_C7_witness :
    (analyzeWithReferenceDataset constFmt constRand [] []).similarityScores.length
      = min 5 (([] : List ReferenceImage).countP fun r => r.embedding.isSome) :=
  (claim_C7_amended constFmt constRand [] []).2

/-- C8 counterexample: a gallery entry whose descriptor has the corrupt length
59 is not skipped — it contributes a similarity record, and the report carries
one top similarity instead of zero. -/
theorem claim_C8_counterexample :
    (similaritiesOf (extractImageFeatures zeroPixels) badGallery).length = 1
    ∧ (analyzeWithReferenceDataset constFmt constRand zeroPixels
        badGallery).similarityScores.length = 1 := by
  constructor
  · rw [similaritiesOf_length, badGallery]
    rfl
  · rw [analyze_similarityScores, List.length_take, List.length_mergeSort,
      similaritiesOf_length, badGallery]
    rfl

/-- C8 (amended): no descriptor-length validation exists — an entry is skipped
exactly when its descriptor is null; every entry with a non-null descriptor of
any length is processed, its vector split at index 48 unconditionally. -/
theorem claim_C8_amended :
    (∀ (testF : List ℝ) (gallery : List ReferenceImage),
      (similaritiesOf testF gallery).length
        = gallery.countP fun r => r.embedding.isSome)
    ∧ ∀ (testF : List ℝ) (ref : ReferenceImage) (emb : List ℝ),
        ref.embedding = some emb →
        similaritiesOf testF [ref] = [⟨ref.id, combinedSimilarity testF emb⟩] := by
  refine ⟨fun testF gallery => similaritiesOf_length testF gallery, ?_⟩
  intro testF ref emb h
  rw [similaritiesOf]
  simp [List.filterMap_cons, h]

/-- C8 witness: the non-null-descriptor hypothesis is dischargeable at the
corrupt 59-entry descriptor, which is processed rather than skipped. -/
theorem claim_C8_witness :
    (⟨"bad", "", "", "default", some (List.replicate 59 (0 : ℝ)), ""⟩
        : ReferenceImage).embedding = some (List.replicate 59 0)
    ∧ similaritiesOf []
        [⟨"bad", "", "", "default", some (List.replicate 59 (0 : ℝ)), ""⟩]
        = [⟨"bad", combinedSimilarity [] (List.replicate 59 0)⟩] :=
  ⟨rfl, claim_C8_amended.2 [] _ _ rfl⟩

end RefDataset
